import Mathlib

/-
  Verification development for the skeletal-animation / spritesheet-baker
  program in `src/SkeletonViewer.tsx`.

  The embedding is shallow: the relevant fragments of the TypeScript source
  are translated into executable Lean definitions.  JavaScript numbers are
  modelled as exact rationals; the external 3D rasterizer and GPU read-back
  are modelled as an oracle `Nat → Nat → Nat → CellBuffer` giving the raw
  RGBA bytes produced when rendering iteration (variant, direction, frame),
  exactly as the spec treats the rendering backend as an external capability.
-/

namespace SkelView

/-- A 3-component vector of exact rationals (models a JS `[number,number,number]`
or a three.js `Vector3`/`Euler` value). -/
abbrev Vec3 : Type := ℚ × ℚ × ℚ

/-- One sparse animation frame: `Object.entries` of the JS record
`Record<string, [number,number,number]>`, in insertion order. -/
abbrev Frame : Type := List (String × Vec3)

/-- `interface BoneData` from the source. -/
structure BoneData where
  name : String
  parent : Option String
  position : Vec3
deriving DecidableEq

/-- `interface Animation` from the source. -/
structure Animation where
  name : String
  duration : ℚ
  frames : List Frame
deriving DecidableEq

/-- One entry of `BODY_VARIANTS` from the source. -/
structure Variant where
  name : String
  scaleY : ℚ
  scaleXZ : ℚ
  cameraY : ℚ
deriving DecidableEq

/-- One entry of `DIRECTIONS` from the source. -/
structure Direction where
  name : String
  pos : Vec3
deriving DecidableEq

/-- `SAMPLE_SKELETON.bones` from the source, transcribed bone for bone. -/
def SAMPLE_SKELETON : List BoneData := [
  ⟨"root", none, (0, 1.05, 0)⟩,
  ⟨"spine", some "root", (0, 0.35, 0)⟩,
  ⟨"chest", some "spine", (0, 0.25, 0)⟩,
  ⟨"neck", some "chest", (0, 0.25, 0)⟩,
  ⟨"head", some "neck", (0, 0.15, 0)⟩,
  ⟨"shoulder_L", some "chest", (-0.18, 0.18, 0)⟩,
  ⟨"upper_arm_L", some "shoulder_L", (-0.28, 0, 0)⟩,
  ⟨"forearm_L", some "upper_arm_L", (-0.26, 0, 0)⟩,
  ⟨"hand_L", some "forearm_L", (-0.18, 0, 0)⟩,
  ⟨"shoulder_R", some "chest", (0.18, 0.18, 0)⟩,
  ⟨"upper_arm_R", some "shoulder_R", (0.28, 0, 0)⟩,
  ⟨"forearm_R", some "upper_arm_R", (0.26, 0, 0)⟩,
  ⟨"hand_R", some "forearm_R", (0.18, 0, 0)⟩,
  ⟨"hip_L", some "root", (-0.12, -0.08, 0)⟩,
  ⟨"thigh_L", some "hip_L", (0, -0.42, 0)⟩,
  ⟨"shin_L", some "thigh_L", (0, -0.40, 0)⟩,
  ⟨"foot_L", some "shin_L", (0, -0.12, 0.08)⟩,
  ⟨"hip_R", some "root", (0.12, -0.08, 0)⟩,
  ⟨"thigh_R", some "hip_R", (0, -0.42, 0)⟩,
  ⟨"shin_R", some "thigh_R", (0, -0.40, 0)⟩,
  ⟨"foot_R", some "shin_R", (0, -0.12, 0.08)⟩]

/-- The keys of the `BODY_PARTS` lookup table, in declaration order (used by
the hierarchy builder to decide which bones receive a body-part proxy). -/
def BODY_PART_NAMES : List String :=
  ["root", "spine", "chest", "neck", "head",
   "shoulder_L", "shoulder_R", "upper_arm_L", "upper_arm_R",
   "forearm_L", "forearm_R", "hand_L", "hand_R",
   "hip_L", "hip_R", "thigh_L", "thigh_R", "shin_L", "shin_R",
   "foot_L", "foot_R"]

/-- `WALK_ANIMATION` from the source: 8 sparse keyframes, duration 1.75 s. -/
def WALK_ANIMATION : Animation :=
  { name := "Walk"
    duration := 1.75
    frames := [
      [("hip_L", (-0.24, 0, 0)), ("thigh_L", (1.02, 0, 0)), ("shin_L", (0, 0, 0)),
       ("hip_R", (-0.26, 0, 0)), ("thigh_R", (0.21, 0, 0)), ("shin_R", (-0.09, 0, 0)),
       ("shoulder_L", (-0.16, 0, 0)), ("forearm_L", (-0.25, 0, 0)),
       ("shoulder_R", (-0.14, 0, 0)), ("forearm_R", (-0.24, 0, 0)),
       ("spine", (0, 0.01, 0))],
      [("hip_L", (-0.53, 0, 0)), ("thigh_L", (0.99, 0, 0)), ("shin_L", (-0.17, 0, 0)),
       ("hip_R", (-0.11, 0, 0)), ("thigh_R", (0.13, 0, 0)), ("shin_R", (-0.13, 0, 0)),
       ("shoulder_L", (-0.07, 0, 0)), ("forearm_L", (-0.22, 0, 0)),
       ("shoulder_R", (-0.32, 0, 0)), ("forearm_R", (-0.30, 0, 0)),
       ("spine", (0, -0.02, 0))],
      [("hip_L", (-0.53, 0, 0)), ("thigh_L", (0.24, 0, 0)), ("shin_L", (-0.20, 0, 0)),
       ("hip_R", (0.01, 0, 0)), ("thigh_R", (0.14, 0, 0)), ("shin_R", (-0.19, 0, 0)),
       ("shoulder_L", (0.01, 0, 0)), ("forearm_L", (-0.20, 0, 0)),
       ("shoulder_R", (-0.32, 0, 0)), ("forearm_R", (-0.30, 0, 0)),
       ("spine", (0, -0.03, 0))],
      [("hip_L", (-0.49, 0, 0)), ("thigh_L", (0.33, 0, 0)), ("shin_L", (-0.05, 0, 0)),
       ("hip_R", (0.07, 0, 0)), ("thigh_R", (0.42, 0, 0)), ("shin_R", (-0.21, 0, 0)),
       ("shoulder_L", (0.04, 0, 0)), ("forearm_L", (-0.21, 0, 0)),
       ("shoulder_R", (-0.29, 0, 0)), ("forearm_R", (-0.29, 0, 0)),
       ("spine", (0, -0.02, 0))],
      [("hip_L", (-0.32, 0, 0)), ("thigh_L", (0.39, 0, 0)), ("shin_L", (-0.11, 0, 0)),
       ("hip_R", (-0.23, 0, 0)), ("thigh_R", (0.98, 0, 0)), ("shin_R", (0.05, 0, 0)),
       ("shoulder_L", (-0.14, 0, 0)), ("forearm_L", (-0.24, 0, 0)),
       ("shoulder_R", (-0.19, 0, 0)), ("forearm_R", (-0.26, 0, 0)),
       ("spine", (0, 0.01, 0))],
      [("hip_L", (-0.12, 0, 0)), ("thigh_L", (0.27, 0, 0)), ("shin_L", (-0.15, 0, 0)),
       ("hip_R", (-0.48, 0, 0)), ("thigh_R", (0.73, 0, 0)), ("shin_R", (-0.10, 0, 0)),
       ("shoulder_L", (-0.29, 0, 0)), ("forearm_L", (-0.29, 0, 0)),
       ("shoulder_R", (-0.07, 0, 0)), ("forearm_R", (-0.22, 0, 0)),
       ("spine", (0, 0.02, 0))],
      [("hip_L", (0.02, 0, 0)), ("thigh_L", (0.29, 0, 0)), ("shin_L", (-0.23, 0, 0)),
       ("hip_R", (-0.41, 0, 0)), ("thigh_R", (0.01, 0, 0)), ("shin_R", (-0.19, 0, 0)),
       ("shoulder_L", (-0.25, 0, 0)), ("forearm_L", (-0.27, 0, 0)),
       ("shoulder_R", (0.01, 0, 0)), ("forearm_R", (-0.20, 0, 0)),
       ("spine", (0, 0.03, 0))],
      [("hip_L", (0.04, 0, 0)), ("thigh_L", (0.54, 0, 0)), ("shin_L", (-0.25, 0, 0)),
       ("hip_R", (-0.41, 0, 0)), ("thigh_R", (0.24, 0, 0)), ("shin_R", (-0.03, 0, 0)),
       ("shoulder_L", (-0.25, 0, 0)), ("forearm_L", (-0.27, 0, 0)),
       ("shoulder_R", (0.02, 0, 0)), ("forearm_R", (-0.20, 0, 0)),
       ("spine", (0, 0.02, 0))]] }

/-- `IDLE_ANIMATION` from the source. -/
def IDLE_ANIMATION : Animation :=
  { name := "Idle"
    duration := 2.0
    frames := [
      [("chest", (0, 0.05, 0)), ("upper_arm_L", (0, 0, 0.1)), ("upper_arm_R", (0, 0, -0.1))],
      [("chest", (0, 0, 0)), ("upper_arm_L", (0, 0, 0)), ("upper_arm_R", (0, 0, 0))],
      [("chest", (0, -0.05, 0)), ("upper_arm_L", (0, 0, -0.1)), ("upper_arm_R", (0, 0, 0.1))],
      [("chest", (0, 0, 0)), ("upper_arm_L", (0, 0, 0)), ("upper_arm_R", (0, 0, 0))]] }

/-- `DIRECTIONS` from the source (camera positions for front, right, back, left). -/
def DIRECTIONS : List Direction :=
  [⟨"front", (0, 1.5, 4)⟩, ⟨"right", (4, 1.5, 0)⟩,
   ⟨"back", (0, 1.5, -4)⟩, ⟨"left", (-4, 1.5, 0)⟩]

/-- `BODY_VARIANTS` from the source (tall, normal, short body presets). -/
def BODY_VARIANTS : List Variant :=
  [⟨"tall", 1.12, 0.95, 1.6⟩, ⟨"normal", 0.92, 1.0, 1.4⟩, ⟨"short", 0.78, 1.05, 1.2⟩]

/-- Fallback variant used to model the non-null index access `BODY_VARIANTS[varIdx]!`
(the index is always in range, so the fallback is never reached). -/
def defVariant : Variant := ⟨"", 1, 1, 1⟩

/-! ### Mutable scene state

The live three.js scene holds, per bone, an `Object3D` with local position,
rotation and scale; a list of body-part proxy meshes (`bodyMeshesRef`); the
grid helper, the debug marker spheres (`skeletonMeshesRef`), the bone
connector lines, and the scene background.  We model exactly those pieces
of shared mutable state that the animation tick and the baker touch. -/

/-- Local transform state of one bone `Object3D`. -/
structure BoneState where
  position : Vec3
  rotation : Vec3
  scale : Vec3
deriving DecidableEq

/-- State of one body-part proxy mesh: its local offset, local rotation and
its separately mutable counter-scale. -/
structure ProxyState where
  offset : Vec3
  rotAngles : Vec3
  scale : Vec3
deriving DecidableEq

/-- The shared mutable scene state touched by the animation tick and by the
spritesheet baker.  `gridVisible = none` models a scene with no grid helper.
The background is `none` when `scene.background = null`. -/
structure SceneState where
  bones : List (String × BoneState)
  proxies : List ProxyState
  gridVisible : Option Bool
  markerVisibles : List Bool
  lineVisibles : List Bool
  background : Option Nat
deriving DecidableEq

/-- Association lookup in `boneObjects` (the `Record<string, Object3D>`). -/
def lookupBone : List (String × BoneState) → String → Option BoneState
  | [], _ => none
  | p :: rest, n => if p.1 = n then some p.2 else lookupBone rest n

/-! ### Pose evaluator (`animate` lines 674-685 and `exportSpritesheet`
lines 428-439; both sites run the identical reset-then-apply code). -/

/-- `Object.values(boneObjects).forEach(bone => bone.rotation.set(0,0,0))`. -/
def resetRotations : List (String × BoneState) → List (String × BoneState)
  | [] => []
  | p :: rest => (p.1, { p.2 with rotation := (0, 0, 0) }) :: resetRotations rest

/-- `boneObjects[boneName].rotation.set(...)` guarded by `if (bone)`: update
the entry carrying the name when present, leave the map unchanged otherwise
(JS object keys are unique, so at most one entry carries the name). -/
def setBoneRotation : List (String × BoneState) → String → Vec3 → List (String × BoneState)
  | [], _, _ => []
  | p :: rest, name, v =>
      (if p.1 = name then (p.1, { p.2 with rotation := v }) else p) ::
        setBoneRotation rest name v

/-- `rootBone.scale.set(...)` style update of a bone's local scale. -/
def setBoneScale : List (String × BoneState) → String → Vec3 → List (String × BoneState)
  | [], _, _ => []
  | p :: rest, name, v =>
      (if p.1 = name then (p.1, { p.2 with scale := v }) else p) ::
        setBoneScale rest name v

/-- The reset-then-apply pose evaluation: zero every bone's rotation, then
apply each `(boneName, rotation)` entry of the target frame in order. -/
def applyPose (bones : List (String × BoneState)) (frame : Frame) :
    List (String × BoneState) :=
  frame.foldl (fun acc e => setBoneRotation acc e.1 e.2) (resetRotations bones)

/-- First-match lookup in a sparse frame (JS record keys are unique, so the
first match is the only match). -/
def frameLookup : Frame → String → Option Vec3
  | [], _ => none
  | e :: rest, n => if e.1 = n then some e.2 else frameLookup rest n

/-- The sub-frame of entries whose bone name exists in the hierarchy. -/
def filterKnown (frame : Frame) (bones : List (String × BoneState)) : Frame :=
  frame.filter (fun e => bones.any (fun p => p.1 == e.1))

/-! ### Frame selection (`animate` lines 663-669)

`Math.floor((elapsed / duration) * frames.length) % frames.length`, with
JS `%` being the truncated (sign-of-dividend) remainder, i.e. `Int.tmod`. -/

/-- Frame index selected by the time-driven playback tick. -/
def frameIndex (duration : ℚ) (frameCount : ℕ) (elapsed : ℚ) : ℤ :=
  Int.tmod (Int.floor (elapsed / duration * (frameCount : ℚ))) (frameCount : ℤ)

/-! ### Variant scaler (`exportSpritesheet` lines 406-418, `animate` 687-702) -/

/-- Apply one body-size variant: set the root bone's scale to
`(scaleXZ, scaleY, scaleXZ)` and every body mesh's scale to the element-wise
reciprocal. -/
def applyVariantState (s : SceneState) (v : Variant) : SceneState :=
  { s with
    bones := setBoneScale s.bones "root" (v.scaleXZ, v.scaleY, v.scaleXZ)
    proxies := s.proxies.map (fun p =>
      { p with scale := (1 / v.scaleXZ, 1 / v.scaleY, 1 / v.scaleXZ) }) }

/-! ### Transform hierarchy builder (`SkeletonViewer` effect, lines 591-622)

For each bone in order: create an `Object3D`, record a debug marker sphere,
record a body mesh when `BODY_PARTS` has a descriptor, register the node in
`boneObjects`, then attach the node to `boneObjects[parent]` when that lookup
succeeds and to the root group otherwise.  Note the registration happens
before the parent lookup, so a bone can in principle find itself. -/

/-- Result of the hierarchy build: per bone, the parent node it was actually
attached to (`none` = attached to the scene's root group), plus the number of
debug marker spheres and of body-part meshes created. -/
structure BuildResult where
  nodes : List (String × Option String)
  markers : ℕ
  bodyParts : ℕ
deriving DecidableEq

/-- The `SAMPLE_SKELETON.bones.forEach` build loop. -/
def buildSkeleton (bones : List BoneData) : BuildResult :=
  bones.foldl (fun acc b =>
    let namesNow := acc.nodes.map Prod.fst ++ [b.name]
    let attached : Option String :=
      match b.parent with
      | some p => if namesNow.contains p then some p else none
      | none => none
    { nodes := acc.nodes ++ [(b.name, attached)]
      markers := acc.markers + 1
      bodyParts := acc.bodyParts + (if BODY_PART_NAMES.contains b.name then 1 else 0) })
    ⟨[], 0, 0⟩

/-- The ordering invariant the spec demands of a skeleton definition: every
bone's parent (when present) is the name of a strictly earlier bone. -/
def wellOrdered (bones : List BoneData) : Bool :=
  (bones.foldl (fun (acc : List String × Bool) b =>
    (acc.1 ++ [b.name],
     acc.2 && match b.parent with
              | some p => acc.1.contains p
              | none => true)) ([], true)).2

/-! ### Spritesheet baker (`exportSpritesheet`, lines 343-546)

The composite 2D canvas is modelled as a function from `(x, y, channel)` to a
byte; the per-cell GPU read-back buffer as a function from linear RGBA index
to a byte.  `rb v d f` is the read-back produced when rendering variant `v`,
direction `d`, frame `f` (the rasterizer is the external collaborator). -/

/-- The composite canvas raster: `(x, y, channel) ↦ byte`. -/
abbrev Atlas : Type := ℕ → ℕ → ℕ → ℕ

/-- A raw RGBA read-back buffer: linear index `↦` byte. -/
abbrev CellBuffer : Type := ℕ → ℕ

/-- A freshly created 2D canvas is transparent black (all bytes zero). -/
def emptyAtlas : Atlas := fun _ _ _ => 0

/-- One byte of the `ImageData` built by the flip loop: destination pixel
`(x, y)` channel `ch` reads source index `((cellSize-1-y)*cellSize+x)*4+ch`
of the bottom-to-top read-back buffer. -/
def imageDataByte (cellSize : ℕ) (buf : CellBuffer) (x y ch : ℕ) : ℕ :=
  buf (((cellSize - 1 - y) * cellSize + x) * 4 + ch)

/-- `ctx.putImageData(imageData, ox, oy)`: overwrite the `cellSize × cellSize`
rectangle at origin `(ox, oy)` with the flipped cell, leaving every other
pixel of the canvas unchanged. -/
def putCell (atlas : Atlas) (cellSize ox oy : ℕ) (buf : CellBuffer) : Atlas :=
  fun px py ch =>
    if ox ≤ px ∧ px < ox + cellSize ∧ oy ≤ py ∧ py < oy + cellSize then
      imageDataByte cellSize buf (px - ox) (py - oy) ch
    else atlas px py ch

/-- Scene-state effect of one inner-loop iteration: re-pose the hierarchy for
frame `f` (matrix update, render and read-back do not mutate local
transforms). -/
def poseStep (frames : List Frame) (st : SceneState) (f : ℕ) : SceneState :=
  { st with bones := applyPose st.bones (frames.getD f []) }

/-- Canvas effect of one inner-loop iteration: composite the flipped cell at
destination origin `(f*cellSize, (v*numDirs+d)*cellSize)`. -/
def pixStep (cellSize numDirs : ℕ) (rb : ℕ → ℕ → ℕ → CellBuffer)
    (a : Atlas) (v d f : ℕ) : Atlas :=
  putCell a cellSize (f * cellSize) ((v * numDirs + d) * cellSize) (rb v d f)

/-- The inner frame loop (`for frameIdx in 0..numFrames`). -/
def bakeInner (frames : List Frame) (cellSize numDirs v d : ℕ)
    (rb : ℕ → ℕ → ℕ → CellBuffer) (p : SceneState × Atlas) : SceneState × Atlas :=
  (List.range frames.length).foldl
    (fun q f => (poseStep frames q.1 f, pixStep cellSize numDirs rb q.2 v d f)) p

/-- The middle direction loop; positioning the offscreen camera touches no
shared scene state, so its only effects are those of the inner loop. -/
def bakeMiddle (frames : List Frame) (cellSize numDirs v : ℕ)
    (rb : ℕ → ℕ → ℕ → CellBuffer) (p : SceneState × Atlas) : SceneState × Atlas :=
  (List.range numDirs).foldl (fun q d => bakeInner frames cellSize numDirs v d rb q) p

/-- The outer variant loop: apply the variant scale and counter-scale, then
run the direction loop. -/
def bakeOuter (frames : List Frame) (cellSize : ℕ) (vs : List Variant) (numDirs : ℕ)
    (rb : ℕ → ℕ → ℕ → CellBuffer) (p : SceneState × Atlas) : SceneState × Atlas :=
  (List.range vs.length).foldl
    (fun q v => bakeMiddle frames cellSize numDirs v rb
      (applyVariantState q.1 (vs.getD v defVariant), q.2)) p

/-- The pre-loop hiding of shared visuals (lines 377-400): grid helper made
invisible when present, every debug marker and connector line made invisible,
background cleared.  The four sequential mutations touch disjoint fields, so
they are written as one record update. -/
def hideState (s : SceneState) : SceneState :=
  { s with
    gridVisible := s.gridVisible.map (fun _ => false)
    markerVisibles := s.markerVisibles.map (fun _ => false)
    lineVisibles := s.lineVisibles.map (fun _ => false)
    background := none }

/-- `list.forEach((m, i) => m.visible = prev[i] ?? default)`. -/
def restoreVisibles (cur prev : List Bool) (dflt : Bool) : List Bool :=
  (List.range cur.length).map (fun i => (prev.getD i dflt))

/-- The post-loop restoration (lines 478-488): root scale replayed from the
stored clone, body-mesh scales set to `(1,1,1)`, visibility flags and
background written back from the recorded values. -/
def restoreState (s5 : SceneState) (origScale : Vec3) (prevGrid : Option Bool)
    (prevMarkers prevLines : List Bool) (prevBackground : Option ℕ) : SceneState :=
  { s5 with
    bones := setBoneScale s5.bones "root" origScale
    proxies := s5.proxies.map (fun p => { p with scale := (1, 1, 1) })
    gridVisible := s5.gridVisible.map (fun _ => prevGrid.getD true)
    markerVisibles := restoreVisibles s5.markerVisibles prevMarkers false
    lineVisibles := restoreVisibles s5.lineVisibles prevLines true
    background := prevBackground }

/-- The `spritesheet` block of the emitted metadata. -/
structure SheetMeta where
  width : ℕ
  height : ℕ
  frameWidth : ℕ
  frameHeight : ℕ
  columns : ℕ
  rows : ℕ
deriving DecidableEq

/-- One entry of the `animations` metadata array. -/
structure AnimMeta where
  name : String
  frameCount : ℕ
  frameDuration : ℚ
  totalDuration : ℚ
  looping : Bool
deriving DecidableEq

/-- One entry of the `variants` metadata array. -/
structure VariantMeta where
  name : String
  rowOffset : ℕ
  rowCount : ℕ
deriving DecidableEq

/-- One entry of the `directions` metadata array. -/
structure DirectionMeta where
  name : String
  rowIndex : ℕ
deriving DecidableEq

/-- The full metadata record emitted alongside the atlas. -/
structure BakeMeta where
  sheet : SheetMeta
  animations : List AnimMeta
  variants : List VariantMeta
  directions : List DirectionMeta
  layout : String
deriving DecidableEq

/-- The metadata object literal (lines 490-519). -/
def mkBakeMeta (anim : Animation) (vs : List Variant) (ds : List Direction)
    (cellSize : ℕ) : BakeMeta :=
  { sheet :=
      { width := anim.frames.length * cellSize
        height := ds.length * vs.length * cellSize
        frameWidth := cellSize
        frameHeight := cellSize
        columns := anim.frames.length
        rows := ds.length * vs.length }
    animations := [⟨"walk", anim.frames.length, anim.duration / (anim.frames.length : ℚ),
                    anim.duration, true⟩]
    variants := vs.enum.map (fun p => ⟨p.2.name, p.1 * ds.length, ds.length⟩)
    directions := ds.enum.map (fun p => ⟨p.2.name, p.1⟩)
    layout := "Each variant has 4 consecutive rows (front, right, back, left). Rows 0-3: tall, Rows 4-7: normal, Rows 8-11: short." }

/-- Result of a bake invocation: the (possibly restored) scene state, and the
two artifacts when the bake ran (`none` when it aborted early). -/
structure BakeOutput where
  state : SceneState
  atlas : Option Atlas
  meta : Option BakeMeta

/-- The whole `exportSpritesheet` routine, generalized over the clip, the
variant and direction catalogues and the cell size (the source fixes them to
`WALK_ANIMATION`, `BODY_VARIANTS`, `DIRECTIONS` and 64).  `ctxOk` models
whether `compositeCanvas.getContext("2d")` succeeds; renderer, camera and
canvas creation before that check mutate no shared scene state.  The recorded
previous values (`prevGridVisible`, `prevSkeletonVisible`, `prevLineVisible`,
`prevBackground`, `origScale`) are captured here from `s` directly because
the mutations preceding each capture in the source touch only other fields. -/
def exportSpritesheetGen (anim : Animation) (vs : List Variant) (ds : List Direction)
    (cellSize : ℕ) (ctxOk : Bool) (rb : ℕ → ℕ → ℕ → CellBuffer)
    (s : SceneState) : BakeOutput :=
  match lookupBone s.bones "root" with
  | none => ⟨s, none, none⟩
  | some rootSt =>
    if ctxOk then
      ⟨restoreState
          (bakeOuter anim.frames cellSize vs ds.length rb (hideState s, emptyAtlas)).1
          rootSt.scale s.gridVisible s.markerVisibles s.lineVisibles s.background,
       some (bakeOuter anim.frames cellSize vs ds.length rb (hideState s, emptyAtlas)).2,
       some (mkBakeMeta anim vs ds cellSize)⟩
    else ⟨s, none, none⟩

/-- The export routine exactly as invoked by the source: walk clip, the three
body variants, the four camera directions, 64-pixel cells. -/
def exportSpritesheet (ctxOk : Bool) (rb : ℕ → ℕ → ℕ → CellBuffer)
    (s : SceneState) : BakeOutput :=
  exportSpritesheetGen WALK_ANIMATION BODY_VARIANTS DIRECTIONS 64 ctxOk rb s

/-! ### Projections of the bake loops

The scene-state and canvas components of the loop nest evolve independently
(the per-iteration state update reads only the state, the per-iteration
canvas update reads only the canvas and the iteration indices), so each side
of the pair admits its own fold.  The equalities with the paired folds above
are proved below. -/

/-- Scene-state effect of the inner frame loop alone. -/
def stateInner (frames : List Frame) (st : SceneState) : SceneState :=
  (List.range frames.length).foldl (poseStep frames) st

/-- Scene-state effect of the direction loop alone (camera moves touch no
shared state, so each direction iteration just replays the frame loop). -/
def stateMiddle (frames : List Frame) (numDirs : ℕ) (st : SceneState) : SceneState :=
  (List.range numDirs).foldl (fun st2 _ => stateInner frames st2) st

/-- Scene-state effect of the variant loop alone. -/
def stateOuter (frames : List Frame) (vs : List Variant) (numDirs : ℕ)
    (st : SceneState) : SceneState :=
  (List.range vs.length).foldl
    (fun st2 v => stateMiddle frames numDirs (applyVariantState st2 (vs.getD v defVariant))) st

/-- Canvas effect of the inner frame loop alone. -/
def atlasInner (cellSize numDirs : ℕ) (rb : ℕ → ℕ → ℕ → CellBuffer) (v d numFrames : ℕ)
    (a : Atlas) : Atlas :=
  (List.range numFrames).foldl (fun a2 f => pixStep cellSize numDirs rb a2 v d f) a

/-- Canvas effect of the direction loop alone. -/
def atlasMiddle (cellSize numDirs : ℕ) (rb : ℕ → ℕ → ℕ → CellBuffer) (v numFrames : ℕ)
    (a : Atlas) : Atlas :=
  (List.range numDirs).foldl (fun a2 d => atlasInner cellSize numDirs rb v d numFrames a2) a

/-- Canvas effect of the whole loop nest alone. -/
def atlasOuter (cellSize numDirs : ℕ) (rb : ℕ → ℕ → ℕ → CellBuffer)
    (numVariants numFrames : ℕ) (a : Atlas) : Atlas :=
  (List.range numVariants).foldl
    (fun a2 v => atlasMiddle cellSize numDirs rb v numFrames a2) a

/-- All `(variant, direction, frame)` iteration triples of the loop nest, in
execution order. -/
def tripleList (V D F : ℕ) : List (ℕ × ℕ × ℕ) :=
  (List.range V).flatMap (fun v =>
    (List.range D).flatMap (fun d => (List.range F).map (fun f => (v, d, f))))

/-- A proxy mesh's pose-independent data (everything but its scale). -/
def eraseScale (p : ProxyState) : Vec3 × Vec3 := (p.offset, p.rotAngles)

/-- The name/position/scale data of a bone map (everything the pose
evaluator is forbidden to touch). -/
def boneTransforms (bones : List (String × BoneState)) : List (String × Vec3 × Vec3) :=
  bones.map (fun p => (p.1, p.2.position, p.2.scale))

/-! ### Concrete fixtures used by witnesses and counterexamples -/

/-- A malformed skeleton definition: the first bone's parent names a bone
that never exists. -/
def badSkeleton : List BoneData :=
  [⟨"torso", some "ghost", (0, 0, 0)⟩, ⟨"arm", some "torso", (0, 0, 0)⟩]

/-- A two-bone hierarchy state used to exercise the pose evaluator. -/
def bonesW : List (String × BoneState) :=
  [("root", ⟨(0, 1.05, 0), (0.5, 0, 0), (1, 1, 1)⟩),
   ("spine", ⟨(0, 0.35, 0), (0.25, 0, 0), (1, 1, 1)⟩)]

/-- A frame touching one known bone and one bone absent from the skeleton. -/
def frameW : Frame := [("spine", (1, 2, 3)), ("ghost", (4, 5, 6))]

/-- A small scene state in its freshly-built configuration (unit scales). -/
def sW : SceneState :=
  ⟨[("root", ⟨(0, 1.05, 0), (0, 0, 0), (1, 1, 1)⟩)],
   [⟨(0, 0, 0), (0, 0, 0), (1, 1, 1)⟩],
   some true, [true], [true], some 1710618⟩

/-- The same scene after one interactive `animate` tick with the default
"normal" variant (`scaleY = 0.92`): root scale `(1, 0.92, 1)` and proxy
counter-scale `(1, 1/0.92, 1)`.  This is the shared state an invocation of
`exportSpritesheet` actually sees. -/
def sPre : SceneState :=
  ⟨[("root", ⟨(0, 1.05, 0), (0, 0, 0), (1, 0.92, 1)⟩)],
   [⟨(0, 0, 0), (0, 0, 0), (1, 1 / (0.92 : ℚ), 1)⟩],
   some true, [true], [true], some 1710618⟩

/-- The first catalogue variant, used as a concrete witness input. -/
def tallVariant : Variant := ⟨"tall", 1.12, 0.95, 1.6⟩

/-! ## Theorems -/

/-- C3: copying a rendered cell into the atlas flips it vertically — for
`x, y < cellSize` and each RGBA channel `ch < 4`, destination pixel `(x, y)`
of the cell placed at origin `(frameIdx*cellSize, rowIdx*cellSize)` receives
the byte at linear index `((cellSize-1-y)*cellSize + x)*4 + ch` of the
bottom-to-top read-back buffer, i.e. source pixel `(x, cellSize-1-y)`. -/
theorem putCell_flip (atlas : Atlas) (buf : CellBuffer) (cellSize frameIdx rowIdx x y ch : ℕ)
    (hx : x < cellSize) (hy : y < cellSize) (hch : ch < 4) :
    putCell atlas cellSize (frameIdx * cellSize) (rowIdx * cellSize) buf
        (frameIdx * cellSize + x) (rowIdx * cellSize + y) ch
      = buf (((cellSize - 1 - y) * cellSize + x) * 4 + ch) := by
  unfold putCell
  rw [if_pos ⟨Nat.le_add_right _ _, Nat.add_lt_add_left hx _,
              Nat.le_add_right _ _, Nat.add_lt_add_left hy _⟩]
  unfold imageDataByte
  rw [Nat.add_sub_cancel_left, Nat.add_sub_cancel_left]

/-- Witness for `putCell_flip` at `cellSize = 2`, cell `(1,1)`, pixel `(1,1)`,
channel 1: the copied byte comes from source index `((2-1-1)*2+1)*4+1 = 5`. -/
theorem putCell_flip_witness :
    putCell emptyAtlas 2 (1 * 2) (1 * 2) (fun i => i) (1 * 2 + 1) (1 * 2 + 1) 1 = 5 :=
  (putCell_flip emptyAtlas (fun i => i) 2 1 1 1 1 1 (by decide) (by decide) (by decide)).trans
    (by rfl)

/-- C7: when the 2D compositing context cannot be acquired, the bake returns
before mutating any shared scene state: the returned state is exactly the
input state (bone rotations, scales, visibility flags and background all
untouched) and no artifacts are produced. -/
theorem bake_ctx_failure (anim : Animation) (vs : List Variant) (ds : List Direction)
    (cellSize : ℕ) (rb : ℕ → ℕ → ℕ → CellBuffer) (s : SceneState) :
    exportSpritesheetGen anim vs ds cellSize false rb s = ⟨s, none, none⟩ := by
  unfold exportSpritesheetGen
  cases h : lookupBone s.bones "root" <;> simp

/-- C9 counterexample: the sample skeleton has 21 bones, not 20, so building
it produces 21 BoneNodes, refuting the claimed count of exactly 20. -/
theorem sample_skeleton_count_counterexample :
    (buildSkeleton SAMPLE_SKELETON).nodes.length = 21
    ∧ (buildSkeleton SAMPLE_SKELETON).nodes.length ≠ 20 := by decide

/-- C9 (amended): building the sample skeleton produces exactly 21 BoneNodes,
exactly one of which is attached at the scene root (the unique bone with null
parent), a debug-marker count equal to the bone count, and an attached-parent
relation exactly mirroring the skeleton definition's parent relation. -/
theorem sample_skeleton_build :
    (buildSkeleton SAMPLE_SKELETON).nodes.length = 21
    ∧ (buildSkeleton SAMPLE_SKELETON).markers = 21
    ∧ ((buildSkeleton SAMPLE_SKELETON).nodes.filter (fun p => p.2.isNone)).length = 1
    ∧ (buildSkeleton SAMPLE_SKELETON).nodes
        = SAMPLE_SKELETON.map (fun b => (b.name, b.parent)) := by decide

/-- The effect of the build loop on one appended bone. -/
theorem buildSkeleton_append (l : List BoneData) (b : BoneData) :
    buildSkeleton (l ++ [b]) =
      { nodes := (buildSkeleton l).nodes ++
          [(b.name,
            match b.parent with
            | some p =>
                if (((buildSkeleton l).nodes.map Prod.fst ++ [b.name]).contains p)
                then some p else none
            | none => none)]
        markers := (buildSkeleton l).markers + 1
        bodyParts := (buildSkeleton l).bodyParts +
          (if BODY_PART_NAMES.contains b.name then 1 else 0) } := by
  unfold buildSkeleton
  rw [List.foldl_append]
  rfl

/-- C8 counterexample: a skeleton whose first bone references a nonexistent
parent is not well-ordered, yet hierarchy construction completes without any
failure, producing a node for every bone — the orphan is attached to the
scene's root group (`none`) instead of aborting with `MalformedSkeleton`. -/
theorem build_malformed_counterexample :
    wellOrdered badSkeleton = false
    ∧ buildSkeleton badSkeleton =
        ⟨[("torso", none), ("arm", some "torso")], 2, 0⟩ := by decide

/-- C8 (amended): hierarchy construction never fails.  Every input bone gets
a node and a debug marker; a bone whose parent does not exist or has not yet
been defined at its point in the order is silently attached to the scene's
root group (`none`), while a parent already registered (the table is updated
before the lookup, so this includes the bone itself) is attached normally. -/
theorem build_never_fails (input : List BoneData) :
    (buildSkeleton input).nodes.length = input.length
    ∧ (buildSkeleton input).markers = input.length
    ∧ (buildSkeleton input).nodes.map Prod.fst = input.map BoneData.name
    ∧ ∀ (i : ℕ) (b : BoneData), input[i]? = some b →
        (buildSkeleton input).nodes[i]? =
          some (b.name,
            match b.parent with
            | some p =>
                if (((input.take (i + 1)).map BoneData.name).contains p)
                then some p else none
            | none => none) := by
  induction input using List.reverseRecOn with
  | nil =>
    refine ⟨rfl, rfl, rfl, ?_⟩
    intro i b hb
    simp at hb
  | append_singleton l b ih =>
    obtain ⟨hlen, hmark, hnames, hidx⟩ := ih
    rw [buildSkeleton_append]
    refine ⟨by simp [hlen], by simp [hmark], by simp [hnames], ?_⟩
    intro i b' hb'
    rcases lt_trichotomy i l.length with hi | hi | hi
    · have hb'' : l[i]? = some b' := by
        rwa [List.getElem?_append_left hi] at hb'
      have hilen : i < (buildSkeleton l).nodes.length := by omega
      dsimp only
      rw [List.getElem?_append_left hilen,
        List.take_append_of_le_length (by omega : i + 1 ≤ l.length)]
      exact hidx i b' hb''
    · subst hi
      have hb'' : b = b' := by
        rw [List.getElem?_concat_length] at hb'
        exact Option.some_injective _ hb'
      subst hb''
      have htake : (l ++ [b]).take (l.length + 1) = l ++ [b] :=
        List.take_of_length_le (by simp)
      dsimp only
      rw [htake, ← hlen, List.getElem?_concat_length, List.map_append, ← hnames]
      rfl
    · have hnone : (l ++ [b])[i]? = none := List.getElem?_eq_none (by simp; omega)
      rw [hnone] at hb'
      exact absurd hb' (by simp)

/-- Witness for `build_never_fails` on the two-bone malformed fixture: both
bones yield nodes, and the orphan's node is attached at the root group. -/
theorem build_never_fails_witness :
    (buildSkeleton badSkeleton).nodes.length = badSkeleton.length
    ∧ (buildSkeleton badSkeleton).nodes[0]? = some ("torso", none)
    ∧ (buildSkeleton badSkeleton).nodes[1]? = some ("arm", some "torso") := by
  have h := build_never_fails badSkeleton
  refine ⟨h.1, ?_, ?_⟩
  · have := h.2.2.2 0 ⟨"torso", some "ghost", (0, 0, 0)⟩ (by decide)
    rw [this]
    decide
  · have := h.2.2.2 1 ⟨"arm", some "torso", (0, 0, 0)⟩ (by decide)
    rw [this]
    decide

/-- C4: time-driven frame selection equals
`floor((elapsed/duration) * frameCount) mod frameCount` (JS truncated `%`
agrees with the mathematical remainder on the nonnegative dividend), and the
selection is periodic with period exactly the clip duration. -/
theorem frameIndex_spec (duration : ℚ) (n : ℕ) (t : ℚ)
    (hd : 0 < duration) (hn : 1 ≤ n) (ht : 0 ≤ t) :
    frameIndex duration n t = Int.floor (t / duration * (n : ℚ)) % (n : ℤ)
    ∧ frameIndex duration n (t + duration) = frameIndex duration n t := by
  have hfl : (0 : ℤ) ≤ Int.floor (t / duration * (n : ℚ)) := by
    apply Int.le_floor.mpr
    push_cast
    exact mul_nonneg (div_nonneg ht hd.le) (Nat.cast_nonneg n)
  have hmain : frameIndex duration n t = Int.floor (t / duration * (n : ℚ)) % (n : ℤ) := by
    unfold frameIndex
    exact Int.tmod_eq_emod hfl (by positivity)
  refine ⟨hmain, ?_⟩
  have hkey : (t + duration) / duration * (n : ℚ) = t / duration * (n : ℚ) + (n : ℚ) := by
    field_simp
    ring
  have hfloor : Int.floor ((t + duration) / duration * (n : ℚ))
      = Int.floor (t / duration * (n : ℚ)) + (n : ℤ) := by
    rw [hkey]
    exact_mod_cast Int.floor_add_nat (t / duration * (n : ℚ)) n
  have hfl2 : (0 : ℤ) ≤ Int.floor ((t + duration) / duration * (n : ℚ)) := by
    rw [hfloor]
    positivity
  unfold frameIndex
  rw [Int.tmod_eq_emod hfl2 (by positivity), Int.tmod_eq_emod hfl (by positivity), hfloor,
    Int.add_emod_self]

/-- Witness for `frameIndex_spec`: clip duration 1.75 s, 8 frames, elapsed
0.5 s — one full period later the same frame is selected. -/
theorem frameIndex_spec_witness :
    frameIndex 1.75 8 0.5 = Int.floor ((0.5 : ℚ) / 1.75 * (8 : ℚ)) % (8 : ℤ)
    ∧ frameIndex 1.75 8 (0.5 + 1.75) = frameIndex 1.75 8 0.5 :=
  frameIndex_spec 1.75 8 0.5 (by norm_num) (by norm_num) (by norm_num)

/-! ### Pose-evaluator lemmas -/

/-- A generic fold-invariant principle used for the bake loops. -/
theorem foldl_invariant {α : Type u_1} {β : Type u_2} (P : β → Prop) (step : β → α → β)
    (h : ∀ b a, P b → P (step b a)) :
    ∀ (l : List α) (init : β), P init → P (l.foldl step init) := by
  intro l
  induction l with
  | nil => intro init hi; exact hi
  | cons a rest ih => intro init hi; exact ih _ (h _ _ hi)

/-- Looking a bone up after a single-bone rotation update. -/
theorem lookupBone_setBoneRotation (bones : List (String × BoneState)) (nm : String)
    (v : Vec3) (b : String) :
    lookupBone (setBoneRotation bones nm v) b =
      if b = nm then (lookupBone bones b).map (fun st => { st with rotation := v })
      else lookupBone bones b := by
  induction bones with
  | nil => simp [setBoneRotation, lookupBone]
  | cons p rest ih =>
    by_cases hpn : p.1 = nm <;> by_cases hpb : p.1 = b
    · have hbn : b = nm := hpb.symm.trans hpn
      simp [setBoneRotation, lookupBone, hpn, hpb, hbn]
    · have hbn : b ≠ nm := fun h => hpb (hpn.trans h.symm)
      have hnb : ¬ nm = b := fun h => hbn h.symm
      simp [setBoneRotation, lookupBone, hpn, hpb, hbn, hnb, ih]
    · have hbn : b ≠ nm := fun h => hpn (hpb.trans h)
      simp [setBoneRotation, lookupBone, hpn, hpb, hbn, ih]
    · simp [setBoneRotation, lookupBone, hpn, hpb, ih]

/-- Looking a bone up after a single-bone scale update. -/
theorem lookupBone_setBoneScale (bones : List (String × BoneState)) (nm : String)
    (v : Vec3) (b : String) :
    lookupBone (setBoneScale bones nm v) b =
      if b = nm then (lookupBone bones b).map (fun st => { st with scale := v })
      else lookupBone bones b := by
  induction bones with
  | nil => simp [setBoneScale, lookupBone]
  | cons p rest ih =>
    by_cases hpn : p.1 = nm <;> by_cases hpb : p.1 = b
    · have hbn : b = nm := hpb.symm.trans hpn
      simp [setBoneScale, lookupBone, hpn, hpb, hbn]
    · have hbn : b ≠ nm := fun h => hpb (hpn.trans h.symm)
      have hnb : ¬ nm = b := fun h => hbn h.symm
      simp [setBoneScale, lookupBone, hpn, hpb, hbn, hnb, ih]
    · have hbn : b ≠ nm := fun h => hpn (hpb.trans h)
      simp [setBoneScale, lookupBone, hpn, hpb, hbn, ih]
    · simp [setBoneScale, lookupBone, hpn, hpb, ih]

/-- Looking a bone up after the global rotation reset. -/
theorem lookupBone_resetRotations (bones : List (String × BoneState)) (b : String) :
    lookupBone (resetRotations bones) b =
      (lookupBone bones b).map (fun st => { st with rotation := (0, 0, 0) }) := by
  induction bones with
  | nil => rfl
  | cons p rest ih =>
    by_cases hpb : p.1 = b
    · simp only [resetRotations, lookupBone, if_pos hpb]
      rfl
    · simp only [resetRotations, lookupBone, if_neg hpb, ih]

/-- A frame with no entry for a bone name leaves that name unresolved. -/
theorem frameLookup_eq_none (frame : Frame) (b : String)
    (h : b ∉ frame.map Prod.fst) : frameLookup frame b = none := by
  induction frame with
  | nil => rfl
  | cons e rest ih =>
    simp only [List.map_cons, List.mem_cons] at h
    push_neg at h
    have h1 : ¬ e.1 = b := fun hh => h.1 hh.symm
    simp [frameLookup, h1, ih h.2]

/-- Characterization of the entry-application fold: with distinct frame keys,
a bone ends at the frame's rotation for it when one exists, and is otherwise
untouched by the fold. -/
theorem lookupBone_foldl_set (b : String) :
    ∀ (frame : Frame) (init : List (String × BoneState)), (frame.map Prod.fst).Nodup →
    lookupBone (frame.foldl (fun acc e => setBoneRotation acc e.1 e.2) init) b =
      match frameLookup frame b with
      | some v => (lookupBone init b).map (fun st => { st with rotation := v })
      | none => lookupBone init b := by
  intro frame
  induction frame with
  | nil => intro init _; rfl
  | cons e rest ih =>
    intro init hnd
    simp only [List.map_cons, List.nodup_cons] at hnd
    rw [List.foldl_cons]
    by_cases hbe : e.1 = b
    · have hbnot : b ∉ rest.map Prod.fst := hbe ▸ hnd.1
      have hrest : frameLookup rest b = none := frameLookup_eq_none rest b hbnot
      rw [ih _ hnd.2, hrest, lookupBone_setBoneRotation]
      simp [frameLookup, hbe, if_pos hbe.symm]
    · have hhead : frameLookup (e :: rest) b = frameLookup rest b := by
        simp [frameLookup, hbe]
      rw [ih _ hnd.2, hhead, lookupBone_setBoneRotation, if_neg (fun h => hbe h.symm)]

/-- Updating one bone's rotation preserves the key list. -/
theorem keys_setBoneRotation (bones : List (String × BoneState)) (nm : String) (v : Vec3) :
    (setBoneRotation bones nm v).map Prod.fst = bones.map Prod.fst := by
  induction bones with
  | nil => rfl
  | cons p rest ih =>
    by_cases hpn : p.1 = nm <;> simp [setBoneRotation, hpn, ih]

/-- The global rotation reset preserves the key list. -/
theorem keys_resetRotations (bones : List (String × BoneState)) :
    (resetRotations bones).map Prod.fst = bones.map Prod.fst := by
  induction bones with
  | nil => rfl
  | cons p rest ih => simp [resetRotations, ih]

/-- Updating a name absent from the hierarchy is a no-op (the `if (bone)`
guard in the source). -/
theorem setBoneRotation_of_not_mem (bones : List (String × BoneState)) (nm : String)
    (v : Vec3) (h : nm ∉ bones.map Prod.fst) : setBoneRotation bones nm v = bones := by
  induction bones with
  | nil => rfl
  | cons p rest ih =>
    simp only [List.map_cons, List.mem_cons] at h
    push_neg at h
    have h1 : ¬ p.1 = nm := fun hh => h.1 hh.symm
    simp only [setBoneRotation, if_neg h1, List.cons.injEq, true_and]
    exact ih h.2

/-- C2: applying a pose resets every bone of the hierarchy to zero rotation
and then overwrites exactly the bones named by the target frame with the
frame's Euler triples; entries naming bones absent from the hierarchy are
silently dropped — the result is identical to applying the frame restricted
to known bones. -/
theorem applyPose_spec (bones : List (String × BoneState)) (frame : Frame)
    (hnd : (frame.map Prod.fst).Nodup) :
    (∀ b : String, lookupBone (applyPose bones frame) b =
        (lookupBone bones b).map (fun st =>
          { st with rotation := (frameLookup frame b).getD (0, 0, 0) }))
    ∧ applyPose bones frame = applyPose bones (filterKnown frame bones) := by
  constructor
  · intro b
    unfold applyPose
    rw [lookupBone_foldl_set b frame _ hnd]
    cases h : frameLookup frame b with
    | none =>
      rw [lookupBone_resetRotations]
      simp
    | some v =>
      rw [lookupBone_resetRotations]
      cases lookupBone bones b <;> simp
  · unfold applyPose
    have hkeys0 : (resetRotations bones).map Prod.fst = bones.map Prod.fst :=
      keys_resetRotations bones
    have hmain : ∀ (fr : Frame) (init : List (String × BoneState)),
        init.map Prod.fst = bones.map Prod.fst →
        fr.foldl (fun acc e => setBoneRotation acc e.1 e.2) init
          = (filterKnown fr bones).foldl (fun acc e => setBoneRotation acc e.1 e.2) init := by
      intro fr
      induction fr with
      | nil => intro init _; rfl
      | cons e rest ih =>
        intro init hkeys
        by_cases hc : bones.any (fun p => p.1 == e.1)
        · have hfilter : filterKnown (e :: rest) bones = e :: filterKnown rest bones := by
            simp [filterKnown, List.filter_cons, hc]
          rw [hfilter, List.foldl_cons, List.foldl_cons]
          apply ih
          rw [keys_setBoneRotation, hkeys]
        · have hfilter : filterKnown (e :: rest) bones = filterKnown rest bones := by
            simp only [filterKnown, List.filter_cons]
            rw [if_neg (by simpa using hc)]
          have hnot : e.1 ∉ init.map Prod.fst := by
            rw [hkeys]
            simp only [List.any_eq_true, beq_iff_eq] at hc
            push_neg at hc
            simp only [List.mem_map]
            rintro ⟨p, hp, hp1⟩
            exact hc p hp hp1
          have hid : setBoneRotation init e.1 e.2 = init := setBoneRotation_of_not_mem _ _ _ hnot
          rw [hfilter, List.foldl_cons, hid]
          exact ih init hkeys
    exact hmain frame (resetRotations bones) hkeys0

/-- Witness for `applyPose_spec` on the two-bone fixture and a frame with one
known and one unknown entry: the untouched bone resets to zero, the named
bone takes the frame triple, and the unknown entry is a no-op. -/
theorem applyPose_spec_witness :
    lookupBone (applyPose bonesW frameW) "root"
        = some ⟨(0, 1.05, 0), (0, 0, 0), (1, 1, 1)⟩
    ∧ lookupBone (applyPose bonesW frameW) "spine"
        = some ⟨(0, 0.35, 0), (1, 2, 3), (1, 1, 1)⟩
    ∧ applyPose bonesW frameW = applyPose bonesW (filterKnown frameW bonesW) := by
  have h := applyPose_spec bonesW frameW (by decide)
  refine ⟨?_, ?_, h.2⟩
  · rw [h.1 "root"]
    rfl
  · rw [h.1 "spine"]
    rfl

/-- C5: applying a variant sets the root bone's local scale to
`(scaleXZ, scaleY, scaleXZ)` and every body-part proxy's local scale to the
element-wise reciprocal, so for positive factors the element-wise product of
root scale and proxy scale is exactly `(1, 1, 1)`. -/
theorem applyVariant_reciprocal (s : SceneState) (v : Variant) (rs : BoneState)
    (hY : 0 < v.scaleY) (hXZ : 0 < v.scaleXZ)
    (hroot : lookupBone s.bones "root" = some rs) :
    (lookupBone (applyVariantState s v).bones "root").map (fun st => st.scale)
        = some (v.scaleXZ, v.scaleY, v.scaleXZ)
    ∧ (∀ p ∈ (applyVariantState s v).proxies,
        p.scale = (1 / v.scaleXZ, 1 / v.scaleY, 1 / v.scaleXZ))
    ∧ (∀ p ∈ (applyVariantState s v).proxies,
        (v.scaleXZ * p.scale.1, v.scaleY * p.scale.2.1, v.scaleXZ * p.scale.2.2)
          = (1, 1, 1)) := by
  have hproxy : ∀ p ∈ (applyVariantState s v).proxies,
      p.scale = (1 / v.scaleXZ, 1 / v.scaleY, 1 / v.scaleXZ) := by
    intro p hp
    simp only [applyVariantState, List.mem_map] at hp
    obtain ⟨q, _, rfl⟩ := hp
    rfl
  refine ⟨?_, hproxy, ?_⟩
  · show (lookupBone (setBoneScale s.bones "root" _) "root").map _ = _
    rw [lookupBone_setBoneScale, if_pos rfl, hroot]
    rfl
  · intro p hp
    rw [hproxy p hp]
    show (v.scaleXZ * (1 / v.scaleXZ), v.scaleY * (1 / v.scaleY),
          v.scaleXZ * (1 / v.scaleXZ)) = (1, 1, 1)
    rw [mul_one_div, mul_one_div, div_self hXZ.ne', div_self hY.ne']

/-- Witness for `applyVariant_reciprocal` on the tall variant applied to the
small fixture scene. -/
theorem applyVariant_reciprocal_witness :
    (lookupBone (applyVariantState sW tallVariant).bones "root").map (fun st => st.scale)
        = some (tallVariant.scaleXZ, tallVariant.scaleY, tallVariant.scaleXZ)
    ∧ (∀ p ∈ (applyVariantState sW tallVariant).proxies,
        (tallVariant.scaleXZ * p.scale.1, tallVariant.scaleY * p.scale.2.1,
         tallVariant.scaleXZ * p.scale.2.2) = (1, 1, 1)) := by
  have h := applyVariant_reciprocal sW tallVariant ⟨(0, 1.05, 0), (0, 0, 0), (1, 1, 1)⟩
    (by norm_num [tallVariant]) (by norm_num [tallVariant]) (by rfl)
  exact ⟨h.1, h.2.2⟩

/-- The pose evaluator leaves every bone's name, position and scale intact
(single-update version). -/
theorem boneTransforms_setBoneRotation (bones : List (String × BoneState)) (nm : String)
    (v : Vec3) : boneTransforms (setBoneRotation bones nm v) = boneTransforms bones := by
  induction bones with
  | nil => rfl
  | cons p rest ih =>
    simp only [boneTransforms] at ih ⊢
    by_cases hpn : p.1 = nm <;> simp [setBoneRotation, hpn, ih]

/-- The global rotation reset leaves every bone's name, position and scale
intact. -/
theorem boneTransforms_resetRotations (bones : List (String × BoneState)) :
    boneTransforms (resetRotations bones) = boneTransforms bones := by
  induction bones with
  | nil => rfl
  | cons p rest ih =>
    simp only [boneTransforms] at ih ⊢
    simp [resetRotations, ih]

/-- Applying a whole pose leaves every bone's name, position and scale
intact. -/
theorem boneTransforms_applyPose (bones : List (String × BoneState)) (frame : Frame) :
    boneTransforms (applyPose bones frame) = boneTransforms bones := by
  unfold applyPose
  have hfold : ∀ (fr : Frame) (init : List (String × BoneState)),
      boneTransforms (fr.foldl (fun acc e => setBoneRotation acc e.1 e.2) init)
        = boneTransforms init := by
    intro fr
    induction fr with
    | nil => intro init; rfl
    | cons e rest ih =>
      intro init
      rw [List.foldl_cons, ih, boneTransforms_setBoneRotation]
  rw [hfold, boneTransforms_resetRotations]

/-- The scale seen through a lookup is untouched by pose application. -/
theorem lookupBone_applyPose_scale (bones : List (String × BoneState)) (frame : Frame)
    (b : String) :
    (lookupBone (applyPose bones frame) b).map (fun st => st.scale)
      = (lookupBone bones b).map (fun st => st.scale) := by
  unfold applyPose
  have hfold : ∀ (fr : Frame) (init : List (String × BoneState)),
      (lookupBone (fr.foldl (fun acc e => setBoneRotation acc e.1 e.2) init) b).map
          (fun st => st.scale)
        = (lookupBone init b).map (fun st => st.scale) := by
    intro fr
    induction fr with
    | nil => intro init; rfl
    | cons e rest ih =>
      intro init
      rw [List.foldl_cons, ih, lookupBone_setBoneRotation]
      by_cases hbe : b = e.1
      · rw [if_pos hbe]
        cases lookupBone init b <;> rfl
      · rw [if_neg hbe]
  rw [hfold, lookupBone_resetRotations]
  cases lookupBone bones b <;> rfl

/-- C10: pose application (interactive tick or baker inner loop) mutates
only bone rotations — every bone's position and scale and every proxy's
state are untouched — and consequently the variant scale and proxy
counter-scale applied before the baker's inner frame loop persist unchanged
through all frame iterations of that variant. -/
theorem pose_mutates_only_rotations (bones : List (String × BoneState)) (frame : Frame)
    (frames : List Frame) (f : ℕ) (s : SceneState) (v : Variant) (rs : BoneState)
    (hroot : lookupBone s.bones "root" = some rs) :
    boneTransforms (applyPose bones frame) = boneTransforms bones
    ∧ (poseStep frames s f).proxies = s.proxies
    ∧ (stateInner frames (applyVariantState s v)).proxies
        = s.proxies.map (fun p =>
            { p with scale := (1 / v.scaleXZ, 1 / v.scaleY, 1 / v.scaleXZ) })
    ∧ (lookupBone (stateInner frames (applyVariantState s v)).bones "root").map
          (fun st => st.scale)
        = some (v.scaleXZ, v.scaleY, v.scaleXZ) := by
  have hproxInv : ∀ (st : SceneState), (stateInner frames st).proxies = st.proxies := by
    intro st
    unfold stateInner
    have hstep : ∀ (b : SceneState) (a : ℕ),
        b.proxies = st.proxies → (poseStep frames b a).proxies = st.proxies :=
      fun b a hb => hb
    exact foldl_invariant _ _ hstep _ _ rfl
  refine ⟨boneTransforms_applyPose bones frame, rfl, ?_, ?_⟩
  · rw [hproxInv]
    rfl
  · have hscale : ∀ (st : SceneState) (X : Vec3),
        (lookupBone st.bones "root").map (fun q => q.scale) = some X →
        (lookupBone (stateInner frames st).bones "root").map (fun q => q.scale) = some X := by
      intro st X hX
      unfold stateInner
      refine foldl_invariant
        (fun st2 => (lookupBone st2.bones "root").map (fun q => q.scale) = some X)
        (poseStep frames) ?_ _ _ hX
      intro b a hb
      show (lookupBone (applyPose b.bones (frames.getD a [])) "root").map _ = some X
      rw [lookupBone_applyPose_scale]
      exact hb
    apply hscale
    show (lookupBone (setBoneScale s.bones "root" _) "root").map _ = _
    rw [lookupBone_setBoneScale, if_pos rfl, hroot]
    rfl

/-- Witness for `pose_mutates_only_rotations` on the fixture scene, the walk
clip's frames and the tall variant. -/
theorem pose_mutates_only_rotations_witness :
    boneTransforms (applyPose bonesW frameW) = boneTransforms bonesW
    ∧ (poseStep WALK_ANIMATION.frames sW 0).proxies = sW.proxies
    ∧ (stateInner WALK_ANIMATION.frames (applyVariantState sW tallVariant)).proxies
        = sW.proxies.map (fun p =>
            { p with scale := (1 / tallVariant.scaleXZ, 1 / tallVariant.scaleY,
                               1 / tallVariant.scaleXZ) })
    ∧ (lookupBone (stateInner WALK_ANIMATION.frames
          (applyVariantState sW tallVariant)).bones "root").map (fun st => st.scale)
        = some (tallVariant.scaleXZ, tallVariant.scaleY, tallVariant.scaleXZ) :=
  pose_mutates_only_rotations bonesW frameW WALK_ANIMATION.frames 0 sW tallVariant
    ⟨(0, 1.05, 0), (0, 0, 0), (1, 1, 1)⟩ (by rfl)

/-! ### Separation of the bake loops into state and canvas components -/

/-- A paired fold whose two components evolve independently equals the pair
of the componentwise folds. -/
theorem foldl_prod_of {α : Type u_1} {β : Type u_2} {γ : Type u_3} (l : List α)
    (h : β × γ → α → β × γ) (f : β → α → β) (g : γ → α → γ)
    (hyp : ∀ q a, h q a = (f q.1 a, g q.2 a)) :
    ∀ p : β × γ, l.foldl h p = (l.foldl f p.1, l.foldl g p.2) := by
  induction l with
  | nil => intro p; simp
  | cons a rest ih =>
    intro p
    rw [List.foldl_cons, List.foldl_cons, List.foldl_cons, hyp, ih]

/-- The inner frame loop splits into its state and canvas effects. -/
theorem bakeInner_eq (frames : List Frame) (cellSize numDirs v d : ℕ)
    (rb : ℕ → ℕ → ℕ → CellBuffer) (p : SceneState × Atlas) :
    bakeInner frames cellSize numDirs v d rb p
      = (stateInner frames p.1, atlasInner cellSize numDirs rb v d frames.length p.2) := by
  unfold bakeInner stateInner atlasInner
  exact foldl_prod_of _
    (fun q f => (poseStep frames q.1 f, pixStep cellSize numDirs rb q.2 v d f))
    (poseStep frames) (fun a2 f => pixStep cellSize numDirs rb a2 v d f)
    (fun q a => rfl) p

/-- The direction loop splits into its state and canvas effects. -/
theorem bakeMiddle_eq (frames : List Frame) (cellSize numDirs v : ℕ)
    (rb : ℕ → ℕ → ℕ → CellBuffer) (p : SceneState × Atlas) :
    bakeMiddle frames cellSize numDirs v rb p
      = (stateMiddle frames numDirs p.1, atlasMiddle cellSize numDirs rb v frames.length p.2) := by
  unfold bakeMiddle stateMiddle atlasMiddle
  exact foldl_prod_of _ _ _ _ (fun q a => bakeInner_eq frames cellSize numDirs v a rb q) p

/-- The whole loop nest splits into its state and canvas effects. -/
theorem bakeOuter_eq (frames : List Frame) (cellSize : ℕ) (vs : List Variant) (numDirs : ℕ)
    (rb : ℕ → ℕ → ℕ → CellBuffer) (p : SceneState × Atlas) :
    bakeOuter frames cellSize vs numDirs rb p
      = (stateOuter frames vs numDirs p.1,
         atlasOuter cellSize numDirs rb vs.length frames.length p.2) := by
  unfold bakeOuter stateOuter atlasOuter
  refine foldl_prod_of _ _ _ _ ?_ p
  intro q a
  rw [bakeMiddle_eq]

/-! ### Shared-state invariants of the bake loops -/

/-- The frame loop touches only bone rotations: every other field of the
scene state is left exactly as found. -/
theorem stateInner_fields (frames : List Frame) (st : SceneState) :
    (stateInner frames st).proxies = st.proxies
    ∧ (stateInner frames st).gridVisible = st.gridVisible
    ∧ (stateInner frames st).markerVisibles = st.markerVisibles
    ∧ (stateInner frames st).lineVisibles = st.lineVisibles
    ∧ (stateInner frames st).background = st.background := by
  unfold stateInner
  have hstep : ∀ (b : SceneState) (a : ℕ),
      (b.proxies = st.proxies ∧ b.gridVisible = st.gridVisible
       ∧ b.markerVisibles = st.markerVisibles ∧ b.lineVisibles = st.lineVisibles
       ∧ b.background = st.background) →
      ((poseStep frames b a).proxies = st.proxies
       ∧ (poseStep frames b a).gridVisible = st.gridVisible
       ∧ (poseStep frames b a).markerVisibles = st.markerVisibles
       ∧ (poseStep frames b a).lineVisibles = st.lineVisibles
       ∧ (poseStep frames b a).background = st.background) :=
    fun b a hb => hb
  exact foldl_invariant
    (fun b => b.proxies = st.proxies ∧ b.gridVisible = st.gridVisible
      ∧ b.markerVisibles = st.markerVisibles ∧ b.lineVisibles = st.lineVisibles
      ∧ b.background = st.background)
    (poseStep frames) hstep _ _ ⟨rfl, rfl, rfl, rfl, rfl⟩

/-- The scale seen through a lookup is untouched by the frame loop. -/
theorem lookupBone_stateInner_scale (frames : List Frame) (st : SceneState) (b : String) :
    (lookupBone (stateInner frames st).bones b).map (fun q => q.scale)
      = (lookupBone st.bones b).map (fun q => q.scale) := by
  unfold stateInner
  have hstep : ∀ (s2 : SceneState) (a : ℕ),
      (lookupBone s2.bones b).map (fun q => q.scale)
          = (lookupBone st.bones b).map (fun q => q.scale) →
      (lookupBone (poseStep frames s2 a).bones b).map (fun q => q.scale)
          = (lookupBone st.bones b).map (fun q => q.scale) := by
    intro s2 a hb
    show (lookupBone (applyPose s2.bones (frames.getD a [])) b).map _ = _
    rw [lookupBone_applyPose_scale]
    exact hb
  exact foldl_invariant
    (fun s2 => (lookupBone s2.bones b).map (fun q => q.scale)
      = (lookupBone st.bones b).map (fun q => q.scale))
    (poseStep frames) hstep _ _ rfl

/-- Overwriting the proxy scales leaves the pose-independent proxy data
untouched. -/
theorem eraseScale_map_set (l : List ProxyState) (u : Vec3) :
    (l.map (fun p => { p with scale := u })).map eraseScale = l.map eraseScale := by
  rw [List.map_map]
  rfl

/-- Two proxy lists agreeing on everything but their scales become equal when
both have their scales overwritten by one value. -/
theorem map_set_of_eraseScale_eq (u : Vec3) :
    ∀ (l1 l2 : List ProxyState), l1.map eraseScale = l2.map eraseScale →
    l1.map (fun p => { p with scale := u }) = l2.map (fun p => { p with scale := u }) := by
  intro l1
  induction l1 with
  | nil =>
    intro l2 h
    cases l2 with
    | nil => rfl
    | cons q t => exact absurd h (by simp)
  | cons p t ih =>
    intro l2 h
    cases l2 with
    | nil => exact absurd h (by simp)
    | cons q t2 =>
      simp only [List.map_cons, List.cons.injEq] at h ⊢
      obtain ⟨h1, h2⟩ := h
      cases p
      cases q
      simp only [eraseScale, Prod.mk.injEq] at h1
      exact ⟨by simp [h1.1, h1.2], ih t2 h2⟩

/-- The combined shared-state invariant carried through the variant loop:
visibility flags and background are untouched, the pose-independent proxy
data is untouched, and the root bone stays present. -/
theorem stateOuter_inv (frames : List Frame) (vs : List Variant) (numDirs : ℕ)
    (s4 : SceneState) :
    (stateOuter frames vs numDirs s4).gridVisible = s4.gridVisible
    ∧ (stateOuter frames vs numDirs s4).markerVisibles = s4.markerVisibles
    ∧ (stateOuter frames vs numDirs s4).lineVisibles = s4.lineVisibles
    ∧ (stateOuter frames vs numDirs s4).background = s4.background
    ∧ (stateOuter frames vs numDirs s4).proxies.map eraseScale
        = s4.proxies.map eraseScale
    ∧ (lookupBone (stateOuter frames vs numDirs s4).bones "root").isSome
        = (lookupBone s4.bones "root").isSome := by
  unfold stateOuter
  have hmiddle : ∀ (st : SceneState),
      (stateMiddle frames numDirs st).gridVisible = st.gridVisible
      ∧ (stateMiddle frames numDirs st).markerVisibles = st.markerVisibles
      ∧ (stateMiddle frames numDirs st).lineVisibles = st.lineVisibles
      ∧ (stateMiddle frames numDirs st).background = st.background
      ∧ (stateMiddle frames numDirs st).proxies = st.proxies
      ∧ (lookupBone (stateMiddle frames numDirs st).bones "root").isSome
          = (lookupBone st.bones "root").isSome := by
    intro st
    unfold stateMiddle
    have hstep : ∀ (s2 : SceneState) (a : ℕ),
        (s2.gridVisible = st.gridVisible ∧ s2.markerVisibles = st.markerVisibles
         ∧ s2.lineVisibles = st.lineVisibles ∧ s2.background = st.background
         ∧ s2.proxies = st.proxies
         ∧ (lookupBone s2.bones "root").isSome = (lookupBone st.bones "root").isSome) →
        ((stateInner frames s2).gridVisible = st.gridVisible
         ∧ (stateInner frames s2).markerVisibles = st.markerVisibles
         ∧ (stateInner frames s2).lineVisibles = st.lineVisibles
         ∧ (stateInner frames s2).background = st.background
         ∧ (stateInner frames s2).proxies = st.proxies
         ∧ (lookupBone (stateInner frames s2).bones "root").isSome
             = (lookupBone st.bones "root").isSome) := by
      intro s2 a hb
      obtain ⟨i1, i2, i3, i4, i5⟩ := stateInner_fields frames s2
      have hiso : (lookupBone (stateInner frames s2).bones "root").isSome
          = (lookupBone s2.bones "root").isSome := by
        have h2 := congrArg Option.isSome (lookupBone_stateInner_scale frames s2 "root")
        simpa using h2
      exact ⟨i2.trans hb.1, i3.trans hb.2.1, i4.trans hb.2.2.1, i5.trans hb.2.2.2.1,
        i1.trans hb.2.2.2.2.1, hiso.trans hb.2.2.2.2.2⟩
    exact foldl_invariant _ _ hstep _ _ ⟨rfl, rfl, rfl, rfl, rfl, rfl⟩
  have hvar : ∀ (st : SceneState) (v : Variant),
      (applyVariantState st v).gridVisible = st.gridVisible
      ∧ (applyVariantState st v).markerVisibles = st.markerVisibles
      ∧ (applyVariantState st v).lineVisibles = st.lineVisibles
      ∧ (applyVariantState st v).background = st.background
      ∧ (applyVariantState st v).proxies.map eraseScale = st.proxies.map eraseScale
      ∧ (lookupBone (applyVariantState st v).bones "root").isSome
          = (lookupBone st.bones "root").isSome := by
    intro st v
    refine ⟨rfl, rfl, rfl, rfl, eraseScale_map_set _ _, ?_⟩
    show (lookupBone (setBoneScale st.bones "root" _) "root").isSome = _
    rw [lookupBone_setBoneScale, if_pos rfl]
    cases lookupBone st.bones "root" <;> rfl
  have hstep : ∀ (s2 : SceneState) (a : ℕ),
      (s2.gridVisible = s4.gridVisible ∧ s2.markerVisibles = s4.markerVisibles
       ∧ s2.lineVisibles = s4.lineVisibles ∧ s2.background = s4.background
       ∧ s2.proxies.map eraseScale = s4.proxies.map eraseScale
       ∧ (lookupBone s2.bones "root").isSome = (lookupBone s4.bones "root").isSome) →
      (((stateMiddle frames numDirs (applyVariantState s2 (vs.getD a defVariant)))).gridVisible
          = s4.gridVisible
       ∧ (stateMiddle frames numDirs (applyVariantState s2 (vs.getD a defVariant))).markerVisibles
          = s4.markerVisibles
       ∧ (stateMiddle frames numDirs (applyVariantState s2 (vs.getD a defVariant))).lineVisibles
          = s4.lineVisibles
       ∧ (stateMiddle frames numDirs (applyVariantState s2 (vs.getD a defVariant))).background
          = s4.background
       ∧ (stateMiddle frames numDirs (applyVariantState s2 (vs.getD a defVariant))).proxies.map
            eraseScale = s4.proxies.map eraseScale
       ∧ (lookupBone (stateMiddle frames numDirs
            (applyVariantState s2 (vs.getD a defVariant))).bones "root").isSome
          = (lookupBone s4.bones "root").isSome) := by
    intro s2 a hb
    obtain ⟨m1, m2, m3, m4, m5, m6⟩ := hmiddle (applyVariantState s2 (vs.getD a defVariant))
    obtain ⟨v1, v2, v3, v4, v5, v6⟩ := hvar s2 (vs.getD a defVariant)
    exact ⟨m1.trans (v1.trans hb.1), m2.trans (v2.trans hb.2.1),
      m3.trans (v3.trans hb.2.2.1), m4.trans (v4.trans hb.2.2.2.1),
      (congrArg (List.map eraseScale) m5).trans (v5.trans hb.2.2.2.2.1),
      m6.trans (v6.trans hb.2.2.2.2.2)⟩
  exact foldl_invariant _ _ hstep _ _ ⟨rfl, rfl, rfl, rfl, rfl, rfl⟩

/-- `forEach` restoration with matching index ranges writes back exactly the
recorded list. -/
theorem range_map_getD {α : Type u_1} (d : α) :
    ∀ (l : List α), (List.range l.length).map (fun i => l.getD i d) = l
  | [] => rfl
  | a :: t => by
    rw [List.length_cons, List.range_succ_eq_map, List.map_cons, List.map_map]
    have htail : (List.map ((fun i => (a :: t).getD i d) ∘ Nat.succ) (List.range t.length))
        = t := range_map_getD d t
    rw [htail]
    rfl

/-- `restoreVisibles` is exact when the two lists have equal length. -/
theorem restoreVisibles_eq (cur prev : List Bool) (d : Bool)
    (h : cur.length = prev.length) : restoreVisibles cur prev d = prev := by
  unfold restoreVisibles
  rw [h]
  exact range_map_getD d prev

/-- Core characterization of the post-bake state: flags and background are
restored exactly, the root scale is restored by replaying the stored value,
and the proxy scales are overwritten with the constant `(1, 1, 1)`. -/
theorem bake_restore_core (anim : Animation) (vs : List Variant) (ds : List Direction)
    (cellSize : ℕ) (rb : ℕ → ℕ → ℕ → CellBuffer) (s : SceneState) (rs : BoneState)
    (hroot : lookupBone s.bones "root" = some rs) :
    (exportSpritesheetGen anim vs ds cellSize true rb s).state.gridVisible = s.gridVisible
    ∧ (exportSpritesheetGen anim vs ds cellSize true rb s).state.markerVisibles
        = s.markerVisibles
    ∧ (exportSpritesheetGen anim vs ds cellSize true rb s).state.lineVisibles
        = s.lineVisibles
    ∧ (exportSpritesheetGen anim vs ds cellSize true rb s).state.background = s.background
    ∧ (exportSpritesheetGen anim vs ds cellSize true rb s).state.proxies
        = s.proxies.map (fun p => { p with scale := (1, 1, 1) })
    ∧ (lookupBone (exportSpritesheetGen anim vs ds cellSize true rb s).state.bones
          "root").map (fun q => q.scale) = some rs.scale := by
  have hout : exportSpritesheetGen anim vs ds cellSize true rb s
      = ⟨restoreState (stateOuter anim.frames vs ds.length (hideState s)) rs.scale
           s.gridVisible s.markerVisibles s.lineVisibles s.background,
         some (atlasOuter cellSize ds.length rb vs.length anim.frames.length emptyAtlas),
         some (mkBakeMeta anim vs ds cellSize)⟩ := by
    unfold exportSpritesheetGen
    rw [hroot]
    dsimp only
    rw [if_pos rfl, bakeOuter_eq]
  rw [hout]
  obtain ⟨o1, o2, o3, o4, o5, o6⟩ := stateOuter_inv anim.frames vs ds.length (hideState s)
  refine ⟨?_, ?_, ?_, rfl, ?_, ?_⟩
  · show ((stateOuter anim.frames vs ds.length (hideState s)).gridVisible).map
        (fun _ => s.gridVisible.getD true) = s.gridVisible
    rw [o1]
    show (s.gridVisible.map (fun _ => false)).map (fun _ => s.gridVisible.getD true)
        = s.gridVisible
    cases s.gridVisible <;> rfl
  · show restoreVisibles (stateOuter anim.frames vs ds.length (hideState s)).markerVisibles
        s.markerVisibles false = s.markerVisibles
    apply restoreVisibles_eq
    rw [o2]
    show (s.markerVisibles.map (fun _ => false)).length = s.markerVisibles.length
    rw [List.length_map]
  · show restoreVisibles (stateOuter anim.frames vs ds.length (hideState s)).lineVisibles
        s.lineVisibles true = s.lineVisibles
    apply restoreVisibles_eq
    rw [o3]
    show (s.lineVisibles.map (fun _ => false)).length = s.lineVisibles.length
    rw [List.length_map]
  · exact map_set_of_eraseScale_eq ((1 : ℚ), (1 : ℚ), (1 : ℚ))
      (stateOuter anim.frames vs ds.length (hideState s)).proxies s.proxies o5
  · show (lookupBone (setBoneScale
        (stateOuter anim.frames vs ds.length (hideState s)).bones "root" rs.scale)
        "root").map (fun q => q.scale) = some rs.scale
    rw [lookupBone_setBoneScale, if_pos rfl]
    have hbs : (lookupBone (hideState s).bones "root").isSome = true := by
      show (lookupBone s.bones "root").isSome = true
      rw [hroot]
      rfl
    rw [hbs] at o6
    obtain ⟨q, hq⟩ := Option.isSome_iff_exists.mp o6
    rw [hq]
    rfl

/-- C6 (amended): after a completed bake the grid/marker/line visibility
flags and the scene background are restored exactly to their pre-bake
values, and the root bone's local scale is restored by replaying the stored
pre-bake value; the body-part proxy scales, however, are not replayed from
stored values — they are set to the constant `(1, 1, 1)`, so a pre-bake
proxy scale other than unit is not restored. -/
theorem bake_restore_amended (anim : Animation) (vs : List Variant) (ds : List Direction)
    (cellSize : ℕ) (rb : ℕ → ℕ → ℕ → CellBuffer) (s : SceneState) (rs : BoneState)
    (hroot : lookupBone s.bones "root" = some rs) :
    (exportSpritesheetGen anim vs ds cellSize true rb s).state.gridVisible = s.gridVisible
    ∧ (exportSpritesheetGen anim vs ds cellSize true rb s).state.markerVisibles
        = s.markerVisibles
    ∧ (exportSpritesheetGen anim vs ds cellSize true rb s).state.lineVisibles
        = s.lineVisibles
    ∧ (exportSpritesheetGen anim vs ds cellSize true rb s).state.background = s.background
    ∧ (exportSpritesheetGen anim vs ds cellSize true rb s).state.proxies
        = s.proxies.map (fun p => { p with scale := (1, 1, 1) })
    ∧ (lookupBone (exportSpritesheetGen anim vs ds cellSize true rb s).state.bones
          "root").map (fun q => q.scale) = some rs.scale :=
  bake_restore_core anim vs ds cellSize rb s rs hroot

/-- Witness for `bake_restore_amended` on the walk-clip bake of the fixture
scene (whose proxy scale is already unit, so restoration happens to be
exact there). -/
theorem bake_restore_amended_witness :
    (exportSpritesheetGen WALK_ANIMATION BODY_VARIANTS DIRECTIONS 64 true
        (fun _ _ _ => fun _ => 0) sW).state.gridVisible = sW.gridVisible
    ∧ (exportSpritesheetGen WALK_ANIMATION BODY_VARIANTS DIRECTIONS 64 true
        (fun _ _ _ => fun _ => 0) sW).state.markerVisibles = sW.markerVisibles
    ∧ (exportSpritesheetGen WALK_ANIMATION BODY_VARIANTS DIRECTIONS 64 true
        (fun _ _ _ => fun _ => 0) sW).state.lineVisibles = sW.lineVisibles
    ∧ (exportSpritesheetGen WALK_ANIMATION BODY_VARIANTS DIRECTIONS 64 true
        (fun _ _ _ => fun _ => 0) sW).state.background = sW.background
    ∧ (exportSpritesheetGen WALK_ANIMATION BODY_VARIANTS DIRECTIONS 64 true
        (fun _ _ _ => fun _ => 0) sW).state.proxies
        = sW.proxies.map (fun p => { p with scale := (1, 1, 1) })
    ∧ (lookupBone (exportSpritesheetGen WALK_ANIMATION BODY_VARIANTS DIRECTIONS 64 true
          (fun _ _ _ => fun _ => 0) sW).state.bones "root").map (fun q => q.scale)
        = some (⟨(0, 1.05, 0), (0, 0, 0), (1, 1, 1)⟩ : BoneState).scale :=
  bake_restore_amended WALK_ANIMATION BODY_VARIANTS DIRECTIONS 64
    (fun _ _ _ => fun _ => 0) sW ⟨(0, 1.05, 0), (0, 0, 0), (1, 1, 1)⟩ (by rfl)

/-- C6 counterexample: invoked from the reachable pre-bake state in which the
interactive tick has set the proxy counter-scale to `(1, 1/0.92, 1)` for the
default "normal" variant, the bake ends with that proxy's scale at
`(1, 1, 1)` — not at its stored pre-bake value — so the baker does not
restore every temporarily mutated piece of shared state exactly. -/
theorem bake_restore_counterexample :
    sPre.proxies = [⟨(0, 0, 0), (0, 0, 0), (1, 1 / (0.92 : ℚ), 1)⟩]
    ∧ (exportSpritesheet true (fun _ _ _ => fun _ => 0) sPre).state.proxies
        = [⟨(0, 0, 0), (0, 0, 0), (1, 1, 1)⟩]
    ∧ (exportSpritesheet true (fun _ _ _ => fun _ => 0) sPre).state.proxies
        ≠ sPre.proxies := by
  have h := (bake_restore_core WALK_ANIMATION BODY_VARIANTS DIRECTIONS 64
    (fun _ _ _ => fun _ => 0) sPre ⟨(0, 1.05, 0), (0, 0, 0), (1, 0.92, 1)⟩
    (by rfl)).2.2.2.2.1
  have hpx : (exportSpritesheet true (fun _ _ _ => fun _ => 0) sPre).state.proxies
      = [⟨(0, 0, 0), (0, 0, 0), (1, 1, 1)⟩] := by
    show (exportSpritesheetGen WALK_ANIMATION BODY_VARIANTS DIRECTIONS 64 true
      (fun _ _ _ => fun _ => 0) sPre).state.proxies = _
    rw [h]
    rfl
  refine ⟨rfl, hpx, ?_⟩
  rw [hpx]
  intro hc
  have hval : ((1 : ℚ), (1 : ℚ), (1 : ℚ)) = ((1 : ℚ), 1 / (0.92 : ℚ), (1 : ℚ)) := by
    have := List.head_eq_of_cons_eq hc
    exact congrArg ProxyState.scale this
  have : (1 : ℚ) = 1 / (0.92 : ℚ) := congrArg (fun v => v.2.1) hval
  norm_num at this

/-! ### Atlas layout: flattening the loop nest and locating each cell -/

/-- Folding over a flattened list equals the nested fold. -/
theorem foldl_flatMap {α : Type u_1} {β : Type u_2} {γ : Type u_3}
    (l : List α) (g : α → List β) (f : γ → β → γ) :
    ∀ init, (l.flatMap g).foldl f init = l.foldl (fun c a => (g a).foldl f c) init := by
  induction l with
  | nil => intro init; rfl
  | cons a rest ih =>
    intro init
    show ((g a ++ rest.flatMap g).foldl f init) = _
    rw [List.foldl_append, ih, List.foldl_cons]

/-- The canvas effect of the loop nest is the flat fold over all iteration
triples in execution order. -/
theorem atlasOuter_eq_flat (cellSize numDirs : ℕ) (rb : ℕ → ℕ → ℕ → CellBuffer)
    (V F : ℕ) (a : Atlas) :
    atlasOuter cellSize numDirs rb V F a
      = (tripleList V numDirs F).foldl
          (fun a2 e => pixStep cellSize numDirs rb a2 e.1 e.2.1 e.2.2) a := by
  unfold atlasOuter tripleList
  rw [foldl_flatMap]
  have hstep : (fun (a2 : Atlas) (v : ℕ) => atlasMiddle cellSize numDirs rb v F a2)
      = (fun (a2 : Atlas) (v : ℕ) =>
          ((List.range numDirs).flatMap (fun d => (List.range F).map (fun f => (v, d, f)))).foldl
            (fun c e => pixStep cellSize numDirs rb c e.1 e.2.1 e.2.2) a2) := by
    funext a2 v
    unfold atlasMiddle
    rw [foldl_flatMap]
    have hstep2 : (fun (c : Atlas) (d : ℕ) => atlasInner cellSize numDirs rb v d F c)
        = (fun (c : Atlas) (d : ℕ) =>
            ((List.range F).map (fun f => (v, d, f))).foldl
              (fun c2 e => pixStep cellSize numDirs rb c2 e.1 e.2.1 e.2.2) c) := by
      funext c d
      unfold atlasInner
      rw [List.foldl_map]
    rw [hstep2]
  rw [hstep]

/-- Membership in the iteration-triple list is exactly the loop bounds. -/
theorem mem_tripleList {V D F v d f : ℕ} :
    (v, d, f) ∈ tripleList V D F ↔ v < V ∧ d < D ∧ f < F := by
  simp only [tripleList, List.mem_flatMap, List.mem_map, List.mem_range, Prod.mk.injEq]
  constructor
  · rintro ⟨v2, hv2, d2, hd2, f2, hf2, rfl, rfl, rfl⟩
    exact ⟨hv2, hd2, hf2⟩
  · rintro ⟨hv, hd, hf⟩
    exact ⟨v, hv, d, hd, f, hf, rfl, rfl, rfl⟩

/-- A pixel strictly inside column block `b` lies in column block `a` only
when `a = b`. -/
theorem cell_index_eq {a b x c : ℕ} (hx : x < c) (h1 : a * c ≤ b * c + x)
    (h2 : b * c + x < a * c + c) : a = b := by
  have hab : a < b + 1 := by
    have hlt : a * c < (b + 1) * c := by
      calc a * c ≤ b * c + x := h1
        _ < b * c + c := by omega
        _ = (b + 1) * c := by ring
    exact Nat.lt_of_mul_lt_mul_right hlt
  have hba : b < a + 1 := by
    have hlt : b * c < (a + 1) * c := by
      calc b * c ≤ b * c + x := Nat.le_add_right _ _
        _ < a * c + c := h2
        _ = (a + 1) * c := by ring
    exact Nat.lt_of_mul_lt_mul_right hlt
  omega

/-- `(v, d) ↦ v*D + d` is injective for `d < D`. -/
theorem row_index_inj {v d v2 d2 D : ℕ} (hd : d < D) (hd2 : d2 < D)
    (h : v * D + d = v2 * D + d2) : v = v2 ∧ d = d2 := by
  have h1 : v * D ≤ v2 * D + d2 := h ▸ Nat.le_add_right (v * D) d
  have h2 : v2 * D + d2 < v * D + D := by
    rw [← h]
    omega
  have hv : v = v2 := cell_index_eq hd2 h1 h2
  subst hv
  exact ⟨rfl, by omega⟩

/-- Last-write characterization of the flat compositing fold: a pixel inside
cell `(column f, row v*D+d)` holds the flipped read-back byte of iteration
`(v, d, f)` as soon as that triple occurs in the list, and the initial canvas
byte otherwise. -/
theorem foldl_pixStep_char (cellSize numDirs : ℕ) (rb : ℕ → ℕ → ℕ → CellBuffer)
    (v d f x y ch : ℕ) (hx : x < cellSize) (hy : y < cellSize) (hd : d < numDirs) :
    ∀ (T : List (ℕ × ℕ × ℕ)), (∀ e ∈ T, e.2.1 < numDirs) → ∀ (a : Atlas),
    (T.foldl (fun a2 e => pixStep cellSize numDirs rb a2 e.1 e.2.1 e.2.2) a)
        (f * cellSize + x) ((v * numDirs + d) * cellSize + y) ch
      = if (v, d, f) ∈ T then imageDataByte cellSize (rb v d f) x y ch
        else a (f * cellSize + x) ((v * numDirs + d) * cellSize + y) ch := by
  intro T
  induction T with
  | nil => intro _ a; simp
  | cons e rest ih =>
    intro hD a
    rw [List.foldl_cons, ih (fun e2 he2 => hD e2 (List.mem_cons_of_mem _ he2))]
    by_cases hmem : (v, d, f) ∈ rest
    · rw [if_pos hmem, if_pos (List.mem_cons_of_mem _ hmem)]
    · rw [if_neg hmem]
      by_cases heq : e = (v, d, f)
      · subst heq
        rw [if_pos (List.mem_cons_self _ _)]
        show putCell a cellSize (f * cellSize) ((v * numDirs + d) * cellSize)
            (rb v d f) _ _ _ = _
        unfold putCell
        rw [if_pos ⟨Nat.le_add_right _ _, Nat.add_lt_add_left hx _,
                    Nat.le_add_right _ _, Nat.add_lt_add_left hy _⟩]
        unfold imageDataByte
        rw [Nat.add_sub_cancel_left, Nat.add_sub_cancel_left]
      · have hnotmem : (v, d, f) ∉ e :: rest := by
          intro hmem2
          rcases List.mem_cons.mp hmem2 with h1 | h1
          · exact heq h1.symm
          · exact hmem h1
        rw [if_neg hnotmem]
        obtain ⟨ev, ed, ef⟩ := e
        show putCell a cellSize (ef * cellSize) ((ev * numDirs + ed) * cellSize)
            (rb ev ed ef) _ _ _ = _
        unfold putCell
        rw [if_neg ?hout]
        case hout =>
          rintro ⟨hc1, hc2, hc3, hc4⟩
          have hcol : ef = f := cell_index_eq hx hc1 hc2
          have hrow : ev * numDirs + ed = v * numDirs + d := cell_index_eq hy hc3 hc4
          have hed : ed < numDirs := hD (ev, ed, ef) (List.mem_cons_self _ _)
          obtain ⟨hv2, hd2⟩ := row_index_inj hed hd hrow
          exact heq (by rw [hv2, hd2, hcol])

/-- The per-variant metadata entry at index `i`. -/
theorem variants_meta_get (anim : Animation) (vs : List Variant) (ds : List Direction)
    (cellSize : ℕ) (i : ℕ) :
    (mkBakeMeta anim vs ds cellSize).variants[i]?
      = vs[i]?.map (fun vv => ⟨vv.name, i * ds.length, ds.length⟩) := by
  show (vs.enum.map _)[i]? = _
  rw [List.getElem?_map, List.getElem?_enum, Option.map_map]
  cases vs[i]? <;> rfl

/-- The per-direction metadata entry at index `i`. -/
theorem directions_meta_get (anim : Animation) (vs : List Variant) (ds : List Direction)
    (cellSize : ℕ) (i : ℕ) :
    (mkBakeMeta anim vs ds cellSize).directions[i]?
      = ds[i]?.map (fun dd => ⟨dd.name, i⟩) := by
  show (ds.enum.map _)[i]? = _
  rw [List.getElem?_map, List.getElem?_enum, Option.map_map]
  cases ds[i]? <;> rfl

/-- The declared row blocks `[v*D, v*D + D)` are disjoint and exactly tile
the row range `[0, V*D)`: every row lies in exactly one block. -/
theorem row_block_tiling (V D r : ℕ) (hr : r < V * D) :
    ∃! vIdx : ℕ, vIdx < V ∧ vIdx * D ≤ r ∧ r < vIdx * D + D := by
  have hD : 0 < D := by
    rcases Nat.eq_zero_or_pos D with h0 | h0
    · subst h0
      rw [Nat.mul_zero] at hr
      omega
    · exact h0
  have hdm : D * (r / D) + r % D = r := Nat.div_add_mod r D
  have hmod : r % D < D := Nat.mod_lt r hD
  refine ⟨r / D, ⟨?_, ?_, ?_⟩, ?_⟩
  · rw [Nat.div_lt_iff_lt_mul hD]
    omega
  · exact Nat.div_mul_le_self r D
  · calc r = D * (r / D) + r % D := hdm.symm
      _ < D * (r / D) + D := by omega
      _ = r / D * D + D := by ring
  · rintro v2 ⟨hv2, hlo, hhi⟩
    exact (Nat.div_eq_of_lt_le hlo (by rw [Nat.succ_mul]; exact hhi)).symm

/-- C1: a bake over a clip with `F` frames, `V` variants and `D` directions at
cell size `c` emits an atlas of width `F*c` and height `V*D*c` (the composite
canvas dimensions recorded in the metadata), metadata declaring
`columns = F`, `rows = V*D`, and per-variant `rowOffset = v*D` with
`rowCount = D`; those row blocks are disjoint and exactly tile the rows; and
each rendered `(v, d, f)` cell is composited at column `f`, row `v*D + d` —
pixel `(f*c+x, (v*D+d)*c+y)` of the finished atlas holds the flipped
read-back byte of iteration `(v, d, f)`. -/
theorem walk_bake_layout (anim : Animation) (vs : List Variant) (ds : List Direction)
    (cellSize : ℕ) (rb : ℕ → ℕ → ℕ → CellBuffer) (s : SceneState) (rs : BoneState)
    (hroot : lookupBone s.bones "root" = some rs) :
    ∃ m A, (exportSpritesheetGen anim vs ds cellSize true rb s).meta = some m
    ∧ (exportSpritesheetGen anim vs ds cellSize true rb s).atlas = some A
    ∧ m.sheet.width = anim.frames.length * cellSize
    ∧ m.sheet.height = vs.length * ds.length * cellSize
    ∧ m.sheet.columns = anim.frames.length
    ∧ m.sheet.rows = vs.length * ds.length
    ∧ (∀ i : ℕ, m.variants[i]? = vs[i]?.map (fun vv => ⟨vv.name, i * ds.length, ds.length⟩))
    ∧ (∀ i : ℕ, m.directions[i]? = ds[i]?.map (fun dd => ⟨dd.name, i⟩))
    ∧ (∀ r : ℕ, r < m.sheet.rows →
        ∃! vIdx : ℕ, vIdx < vs.length ∧ vIdx * ds.length ≤ r ∧ r < vIdx * ds.length + ds.length)
    ∧ (∀ v d f x y ch : ℕ, v < vs.length → d < ds.length → f < anim.frames.length →
        x < cellSize → y < cellSize → ch < 4 →
        A (f * cellSize + x) ((v * ds.length + d) * cellSize + y) ch
          = rb v d f (((cellSize - 1 - y) * cellSize + x) * 4 + ch)) := by
  have hout : exportSpritesheetGen anim vs ds cellSize true rb s
      = ⟨restoreState (stateOuter anim.frames vs ds.length (hideState s)) rs.scale
           s.gridVisible s.markerVisibles s.lineVisibles s.background,
         some (atlasOuter cellSize ds.length rb vs.length anim.frames.length emptyAtlas),
         some (mkBakeMeta anim vs ds cellSize)⟩ := by
    unfold exportSpritesheetGen
    rw [hroot]
    dsimp only
    rw [if_pos rfl, bakeOuter_eq]
  refine ⟨mkBakeMeta anim vs ds cellSize,
    atlasOuter cellSize ds.length rb vs.length anim.frames.length emptyAtlas,
    by rw [hout], by rw [hout], rfl, ?_, rfl, ?_, ?_, ?_, ?_, ?_⟩
  · show ds.length * vs.length * cellSize = vs.length * ds.length * cellSize
    ring
  · show ds.length * vs.length = vs.length * ds.length
    ring
  · intro i
    exact variants_meta_get anim vs ds cellSize i
  · intro i
    exact directions_meta_get anim vs ds cellSize i
  · intro r hr
    refine row_block_tiling vs.length ds.length r ?_
    calc r < (mkBakeMeta anim vs ds cellSize).sheet.rows := hr
      _ = vs.length * ds.length := by show ds.length * vs.length = _; ring
  · intro v d f x y ch hv hd hf hx hy _
    have hDbound : ∀ e ∈ tripleList vs.length ds.length anim.frames.length,
        e.2.1 < ds.length := by
      intro e he
      obtain ⟨e1, e2, e3⟩ := e
      exact (mem_tripleList.mp he).2.1
    rw [atlasOuter_eq_flat]
    rw [foldl_pixStep_char cellSize ds.length rb v d f x y ch hx hy hd
      (tripleList vs.length ds.length anim.frames.length) hDbound emptyAtlas]
    rw [if_pos (mem_tripleList.mpr ⟨hv, hd, hf⟩)]
    rfl

/-- Witness for `walk_bake_layout` on the source's actual bake parameters
(walk clip: 8 frames, 3 variants, 4 directions, 64-pixel cells — 8 columns,
12 rows, variant row offsets 0, 4, 8). -/
theorem walk_bake_layout_witness :
    ∃ m A, (exportSpritesheetGen WALK_ANIMATION BODY_VARIANTS DIRECTIONS 64 true
        (fun _ _ _ => fun _ => 0) sW).meta = some m
    ∧ (exportSpritesheetGen WALK_ANIMATION BODY_VARIANTS DIRECTIONS 64 true
        (fun _ _ _ => fun _ => 0) sW).atlas = some A
    ∧ m.sheet.width = 512
    ∧ m.sheet.height = 768
    ∧ m.sheet.columns = 8
    ∧ m.sheet.rows = 12
    ∧ m.variants[0]? = some ⟨"tall", 0, 4⟩
    ∧ m.variants[1]? = some ⟨"normal", 4, 4⟩
    ∧ m.variants[2]? = some ⟨"short", 8, 4⟩
    ∧ (∀ r : ℕ, r < m.sheet.rows →
        ∃! vIdx : ℕ, vIdx < 3 ∧ vIdx * 4 ≤ r ∧ r < vIdx * 4 + 4) := by
  obtain ⟨m, A, hm, hA, hw, hh, hc, hrows, hvar, _, htile, _⟩ :=
    walk_bake_layout WALK_ANIMATION BODY_VARIANTS DIRECTIONS 64
      (fun _ _ _ => fun _ => 0) sW ⟨(0, 1.05, 0), (0, 0, 0), (1, 1, 1)⟩ (by rfl)
  refine ⟨m, A, hm, hA, by rw [hw]; rfl, by rw [hh]; rfl, by rw [hc]; rfl,
    by rw [hrows]; rfl, ?_, ?_, ?_, ?_⟩
  · rw [hvar 0]
    rfl
  · rw [hvar 1]
    rfl
  · rw [hvar 2]
    rfl
  · intro r hr
    exact htile r hr

end SkelView
